import Mathlib

/-!
# Split-horizon DNS handler (`src/dnsServer/handler_darwin.go`)

A shallow embedding of the `Handler` of the zcli DNS server: its routing
state, the reconfiguration calls `SetAddresses` / `StopForward`, and the
request path `ServeDNS → parseQuery → serveForward / serveVpnForward`.

Conventions of the embedding.

* Go strings are byte strings; they are embedded as `List Char` (all names
  handled here are ASCII).
* `net.IP` and `net.IPMask` are byte slices; they are embedded as `List Nat`
  whose entries are bytes (`< 256`).
* A Go pointer that may be `nil` is an `Option`; a Go `error` is an
  `Option Error` (`none` is `nil`).
* A run-time panic (nil-pointer dereference, slice bounds out of range) is an
  explicit outcome.
* The upstream exchanger `dns.Client.ExchangeContext` is a parameter: a
  function of the query and of the `*net.UDPAddr` whose `String()` is handed
  to it. The calls made are recorded, in order, in a trace.
* The read/write lock, the context deadline and the output of the logger do
  not influence the values computed and are left out; the arguments of a log
  call are still evaluated, and where that evaluation can panic (the index
  `m.Question[0]` in `serveForward`) the panic is part of the embedding.
-/

namespace DnsServer

/-! ## Library data (`net`, `github.com/miekg/dns`) -/

/-- Go `error` values, represented by their message. -/
abbrev Error := String

/-- Byte slice `net.IP`. -/
abbrev IP := List Nat

/-- Byte slice `net.IPMask`. -/
abbrev IPMask := List Nat

/-- Struct `net.IPNet`. -/
structure IPNet where
  IP : IP
  Mask : IPMask
  deriving DecidableEq, Repr

/-- Struct `net.UDPAddr` (the zone is never set by the handler). -/
structure UDPAddr where
  IP : IP
  Port : Nat
  deriving DecidableEq, Repr

/-- Struct `dns.Question`. -/
structure Question where
  Name : List Char
  Qtype : Nat
  Qclass : Nat
  deriving DecidableEq, Repr

/-- Resource records are carried around but never inspected by the handler. -/
structure RR where
  Name : List Char
  Rrtype : Nat
  Rdata : List Nat
  deriving DecidableEq, Repr

/-- Struct `dns.Msg`: the header fields of `dns.MsgHdr` and the four sections. -/
structure Msg where
  Id : Nat
  Response : Bool
  Opcode : Nat
  Authoritative : Bool
  Truncated : Bool
  RecursionDesired : Bool
  RecursionAvailable : Bool
  Zero : Bool
  AuthenticatedData : Bool
  CheckingDisabled : Bool
  Rcode : Nat
  Compress : Bool
  Question : List Question
  Answer : List RR
  Ns : List RR
  Extra : List RR
  deriving DecidableEq, Repr

/-- The value `new(dns.Msg)` points to: every field zero. -/
def newMsg : Msg :=
  { Id := 0, Response := false, Opcode := 0, Authoritative := false, Truncated := false,
    RecursionDesired := false, RecursionAvailable := false, Zero := false,
    AuthenticatedData := false, CheckingDisabled := false, Rcode := 0, Compress := false,
    Question := [], Answer := [], Ns := [], Extra := [] }

/-- Constant `dns.RcodeSuccess`. -/
def RcodeSuccess : Nat := 0

/-- Constant `dns.RcodeServerFailure`. -/
def RcodeServerFailure : Nat := 2

/-- Constant `dns.OpcodeQuery`. -/
def OpcodeQuery : Nat := 0

/-- Constant `dns.TypeA`. -/
def TypeA : Nat := 1

/-- Constant `dns.TypePTR`. -/
def TypePTR : Nat := 12

/-- Constant `dns.TypeAAAA`. -/
def TypeAAAA : Nat := 28

/-- Library method `(*dns.Msg).SetReply`: turn `m` into a reply to `request`. -/
def SetReply (m request : Msg) : Msg :=
  let m1 := { m with Id := request.Id, Response := true, Opcode := request.Opcode }
  let m2 :=
    if m1.Opcode = OpcodeQuery then
      { m1 with RecursionDesired := request.RecursionDesired,
                CheckingDisabled := request.CheckingDisabled }
    else m1
  let m3 := { m2 with Rcode := RcodeSuccess }
  match request.Question with
  | [] => m3
  | q :: _ => { m3 with Question := [q] }

/-- Library method `(*dns.Msg).SetRcode`: `SetReply` followed by the store of `rcode`. -/
def SetRcode (m request : Msg) (rcode : Nat) : Msg :=
  { SetReply m request with Rcode := rcode }

/-- Library function `strings.HasSuffix`:
`len(s) >= len(suffix) && s[len(s)-len(suffix):] == suffix`. -/
def HasSuffix (s suffix : List Char) : Bool :=
  decide (s.length ≥ suffix.length) && (s.drop (s.length - suffix.length) == suffix)

/-! ## Outcomes and traces -/

/-- How a Go call ends: it returns a value or it panics. -/
inductive Outcome (α : Type) where
  | ret (v : α)
  | panic (msg : String)
  deriving DecidableEq, Repr

/-- The message of the run-time error raised by a store through a nil pointer. -/
def nilDereference : String := "invalid memory address or nil pointer dereference"

/-- The message of the run-time error raised by a slice expression out of range. -/
def sliceOutOfRange : String := "slice bounds out of range"

/-- The message of the run-time error raised by the index `[0]` on an empty slice. -/
def indexOutOfRange : String := "index out of range [0] with length 0"

/-- The upstream exchanger `h.dnsClient.ExchangeContext(ctx, m, addr.String())`, as a function of
the query `m` and of the `*net.UDPAddr` `addr`; it returns the Go pair `(in, err)`. -/
abbrev Exchanger := Msg → Option UDPAddr → Option Msg × Option Error

/-- A run of a request-path function: the upstream addresses it exchanged with, in order, and
how it ended. -/
structure Run (α : Type) where
  trace : List (Option UDPAddr)
  result : Outcome α
  deriving DecidableEq, Repr

/-! ## The handler -/

/-- Struct `Handler`: the routing state. -/
structure Handler where
  address : IP
  forwardAddress : List IP
  vpnForwardAddress : Option UDPAddr
  vpnForward : Bool
  vpnNetwork : IPNet
  ptrPrefix : List Char
  deriving DecidableEq, Repr

/-- Function `New`: only `forwardAddress` is set (to `8.8.8.8`, which `net.ParseIP` returns in its
16-byte form); every other field has its zero value. -/
def New : Handler :=
  { address := [],
    forwardAddress := [[0, 0, 0, 0, 0, 0, 0, 0, 0, 0, 0xff, 0xff, 8, 8, 8, 8]],
    vpnForwardAddress := none,
    vpnForward := false,
    vpnNetwork := { IP := [], Mask := [] },
    ptrPrefix := [] }

/-- The loop of `serveForward` over the remaining upstreams. After a failed exchange the log call
evaluates `m.Question[0].Name`, which panics when `m` carries no question; otherwise the loop
continues with the next upstream. -/
def serveForwardLoop (ex : Exchanger) (m : Msg) : List IP → Run (Option Msg × Option Error)
  | [] => { trace := [], result := .ret (none, some "forward error") }
  | server :: rest =>
    let address : UDPAddr := { IP := server, Port := 53 }
    match ex m (some address) with
    | (_, some _) =>
      match m.Question with
      | [] => { trace := [some address], result := .panic indexOutOfRange }
      | _ :: _ =>
        let r := serveForwardLoop ex m rest
        { trace := some address :: r.trace, result := r.result }
    | (inMsg, none) => { trace := [some address], result := .ret (inMsg, none) }

/-- Method `Handler.serveForward`. -/
def serveForward (h : Handler) (ex : Exchanger) (m : Msg) : Run (Option Msg × Option Error) :=
  serveForwardLoop ex m h.forwardAddress

/-- Method `Handler.serveVpnForward`. -/
def serveVpnForward (h : Handler) (ex : Exchanger) (m : Msg) :
    Run (Option Msg × Option Error) :=
  match ex m h.vpnForwardAddress with
  | (_, some err) => { trace := [h.vpnForwardAddress], result := .ret (none, some err) }
  | (inMsg, none) => { trace := [h.vpnForwardAddress], result := .ret (inMsg, none) }

/-- The store `out.Rcode = rcode` through the pointer `out`. -/
def storeRcode (out : Option Msg) (rcode : Nat) : Outcome (Option Msg) :=
  match out with
  | none => .panic nilDereference
  | some m => .ret (some { m with Rcode := rcode })

/-- The condition of the `if` in `parseQuery`; in Go `&&` binds tighter than `||`. -/
def vpnCondition (h : Handler) (q : Question) : Bool :=
  (h.vpnForward && HasSuffix q.Name ".zerops.".toList) || HasSuffix q.Name h.ptrPrefix

/-- Method `Handler.parseQuery`. The named results `out` and `err` start as `nil`. -/
def parseQuery (h : Handler) (ex : Exchanger) (inMsg : Msg) : Run (Option Msg × Option Error) :=
  let out : Option Msg := none
  let err : Option Error := none
  match inMsg.Question with
  | [] => { trace := [], result := .ret (out, err) }
  | _ :: _ :: _ =>
    match storeRcode out RcodeServerFailure with
    | .panic msg => { trace := [], result := .panic msg }
    | .ret out1 => { trace := [], result := .ret (out1, err) }
  | [q] =>
    if vpnCondition h q then
      if q.Qtype = TypeA then
        { trace := [], result := .ret (some (SetRcode newMsg inMsg RcodeServerFailure), none) }
      else serveVpnForward h ex inMsg
    else serveForward h ex inMsg

/-- What `ServeDNS` does that is visible outside the handler. -/
inductive Event where
  | exchange (addr : Option UDPAddr)
  | logError
  | writeMsg (response : Option Msg)
  | close
  deriving DecidableEq, Repr

/-- The method `WriteMsg` of the `dns.ResponseWriter` handed to `ServeDNS`, as a function of the
`*dns.Msg` it is called with: it returns an error value or panics. -/
abbrev Writer := Option Msg → Outcome (Option Error)

/-- Method `Handler.ServeDNS`: the events of one request and how the call ended. The deferred
`w.Close()` runs on every exit, a panic included. -/
def ServeDNS (h : Handler) (ex : Exchanger) (w : Writer) (r : Msg) : List Event × Outcome Unit :=
  let p := parseQuery h ex r
  let exchanges := p.trace.map Event.exchange
  match p.result with
  | .panic msg => (exchanges ++ [Event.close], .panic msg)
  | .ret (_, some _) => (exchanges ++ [Event.logError, Event.close], .ret ())
  | .ret (response, none) =>
    match w response with
    | .panic msg => (exchanges ++ [Event.writeMsg response, Event.close], .panic msg)
    | .ret (some _) =>
      (exchanges ++ [Event.writeMsg response, Event.logError, Event.close], .ret ())
    | .ret none => (exchanges ++ [Event.writeMsg response, Event.close], .ret ())

/-- Method `Handler.StopForward`. -/
def StopForward (h : Handler) : Handler :=
  { h with vpnForward := false }

/-! ## Addresses, masks and reverse-lookup names -/

/-- Library function `net.isZeros`. -/
def isZeros (p : List Nat) : Bool :=
  p.all (fun b => b == 0)

/-- Library method `net.IP.To4`: the 4-byte form of an IPv4 address, `nil` otherwise. -/
def To4 (ip : IP) : Option IP :=
  if ip.length = 4 then some ip
  else if ip.length = 16 ∧ isZeros (ip.take 10) = true ∧ ip[10]? = some 0xff
      ∧ ip[11]? = some 0xff then
    some (ip.drop 12)
  else none

/-- The textual round trip `net.ParseIP(ip.String())` at the head of
`dns.ReverseAddr(vpnNetwork.IP.String())`: an IPv4 address (in 4-byte or IPv4-mapped form) prints
in dotted form and parses to the 16-byte IPv4-mapped form; any other 16-byte address prints as
IPv6 text and parses to itself; a slice of any other length prints as `<nil>` or `?hex`, which
does not parse. -/
def parseIPString (ip : IP) : Option IP :=
  match To4 ip with
  | some v4 => some ([0, 0, 0, 0, 0, 0, 0, 0, 0, 0, 0xff, 0xff] ++ v4)
  | none => if ip.length = 16 then some ip else none

/-- Library function `strconv.AppendInt(buf, int64(v), 10)` for a byte `v`: its decimal digits. -/
def AppendInt (buf : List Char) (v : Nat) : List Char :=
  buf ++ Nat.toDigits 10 v

/-- The table `hexDigit` of the dns library. -/
def hexDigit (n : Nat) : Char :=
  "0123456789abcdef".toList.getD n '0'

/-- The IPv4 loop of `dns.ReverseAddr`, over the bytes already taken from last to first. -/
def reverseOctets : List Nat → List Char → List Char
  | [], buf => buf
  | v :: rest, buf => reverseOctets rest (AppendInt buf v ++ ['.'])

/-- The IPv6 loop of `dns.ReverseAddr`, over the bytes already taken from last to first. -/
def reverseNibbles : List Nat → List Char → List Char
  | [], buf => buf
  | v :: rest, buf =>
    reverseNibbles rest (buf ++ [hexDigit (v &&& 0xF), '.', hexDigit (v >>> 4), '.'])

/-- Library function `dns.ReverseAddr`, after its call of `net.ParseIP` (whose result is
`parsed`). -/
def ReverseAddr (parsed : Option IP) : Except Error (List Char) :=
  match parsed with
  | none => .error "unrecognized address"
  | some ip =>
    match To4 ip with
    | some v4 => .ok (reverseOctets v4.reverse [] ++ "in-addr.arpa.".toList)
    | none => .ok (reverseNibbles ip.reverse [] ++ "ip6.arpa.".toList)

/-- The loop `for v&0x80 != 0 { n++; v <<= 1 }` of `net.simpleMaskLength` on the byte `v`: the
number of rounds and the byte left. Eight rounds shift every bit out. -/
def leadingOnes : Nat → Nat → Nat × Nat
  | 0, v => (0, v)
  | fuel + 1, v =>
    if v &&& 0x80 ≠ 0 then
      let r := leadingOnes fuel ((v <<< 1) % 256)
      (r.1 + 1, r.2)
    else (0, v)

/-- Library function `net.simpleMaskLength`; `none` is its result `-1`. -/
def simpleMaskLength : IPMask → Option Nat
  | [] => some 0
  | v :: rest =>
    if v = 0xff then (simpleMaskLength rest).map (fun n => n + 8)
    else
      let r := leadingOnes 8 v
      if r.2 ≠ 0 then none
      else if rest.all (fun b => b == 0) then some r.1
      else none

/-- Library method `net.IPMask.Size`: `(ones, bits)`, or `(0, 0)` for a mask not in canonical
form. -/
def Size (m : IPMask) : Int × Int :=
  match simpleMaskLength m with
  | none => (0, 0)
  | some ones => ((ones : Int), ((m.length * 8 : Nat) : Int))

/-- The loop of `net.CIDRMask` filling the `l` bytes left with the `n` one bits left. -/
def CIDRMaskLoop : Nat → Nat → IPMask
  | 0, _ => []
  | l + 1, n =>
    if n ≥ 8 then 0xff :: CIDRMaskLoop l (n - 8)
    else (0xff ^^^ (0xff >>> n)) :: CIDRMaskLoop l 0

/-- Library function `net.CIDRMask`; the result `nil` is the empty mask. -/
def CIDRMask (ones bits : Nat) : IPMask :=
  if bits ≠ 32 ∧ bits ≠ 128 then []
  else if ones > bits then []
  else CIDRMaskLoop (bits / 8) ones

/-- The slice expression `s[i:]` on a string: defined when `0 ≤ i ≤ len(s)`. -/
def sliceFrom (s : List Char) (i : Int) : Option (List Char) :=
  if 0 ≤ i ∧ i ≤ (s.length : Int) then some (s.drop i.toNat) else none

/-- How `SetAddresses` ends: normally, or by a panic that leaves the receiver as it is then. -/
inductive SetResult where
  | done (h : Handler)
  | panicked (h : Handler) (msg : String)
  deriving DecidableEq, Repr

/-- The index `(bits-ones)/4*2` of the slice expression in `SetAddresses` (Go integer division
truncates). -/
def ptrOffset (mask : IPMask) : Int :=
  (((Size mask).2 - (Size mask).1).tdiv 4) * 2

/-- Method `Handler.SetAddresses`. -/
def SetAddresses (h : Handler) (serverAddress : IP) (userResolverIp : List IP)
    (vpnResolverIp : IP) (vpnNetwork : IPNet) : SetResult :=
  let h1 := { h with address := serverAddress, forwardAddress := userResolverIp,
                     vpnForward := true, vpnNetwork := vpnNetwork }
  let vpnAddr : UDPAddr := { IP := vpnResolverIp, Port := 53 }
  match ReverseAddr (parseIPString vpnNetwork.IP) with
  | .ok ptr =>
    match sliceFrom ptr (ptrOffset vpnNetwork.Mask) with
    | none => .panicked h1 sliceOutOfRange
    | some tail =>
      .done { h1 with ptrPrefix := ".".toList ++ tail, vpnForwardAddress := some vpnAddr }
  | .error _ => .done { h1 with vpnForwardAddress := some vpnAddr }

/-- Library function `net.networkNumberAndMask`; `none` is its result `nil, nil`. -/
def networkNumberAndMask (n : IPNet) : Option (IP × IPMask) :=
  let ip? : Option IP :=
    match To4 n.IP with
    | some v4 => some v4
    | none => if n.IP.length ≠ 16 then none else some n.IP
  match ip? with
  | none => none
  | some ip =>
    if n.Mask.length = 4 then
      if ip.length ≠ 4 then none else some (ip, n.Mask)
    else if n.Mask.length = 16 then
      if ip.length = 4 then some (ip, n.Mask.drop 12) else some (ip, n.Mask)
    else none

/-- The comparison loop of `net.IPNet.Contains` over three slices of one length. -/
def containsLoop : IP → IPMask → IP → Bool
  | n :: nn, m :: ms, x :: xs => if n &&& m ≠ x &&& m then false else containsLoop nn ms xs
  | _, _, _ => true

/-- Library method `net.IPNet.Contains`. -/
def Contains (n : IPNet) (ip : IP) : Bool :=
  let x := match To4 ip with
    | some v4 => v4
    | none => ip
  match networkNumberAndMask n with
  | none => x.length == 0
  | some (nn, m) => if x.length ≠ nn.length then false else containsLoop nn m x

/-- The reverse-lookup name of the address `x`, as `dns.ReverseAddr` gives it. -/
def reverseName (x : IP) : List Char :=
  match ReverseAddr (parseIPString x) with
  | .ok ptr => ptr
  | .error _ => []

/-- The handler once `SetAddresses` is over, whether it returned or panicked. -/
def SetResult.state : SetResult → Handler
  | .done h => h
  | .panicked h _ => h

/-! ## Sample data -/

/-- A query message carrying the given questions. -/
def queryMsg (id : Nat) (qs : List Question) : Msg :=
  { newMsg with Id := id, RecursionDesired := true, Question := qs }

/-- The question for `name` with type `qtype` in class `IN`. -/
def question (name : String) (qtype : Nat) : Question :=
  { Name := name.toList, Qtype := qtype, Qclass := 1 }

/-- The network `10.0.0.0/24`. -/
def net10slash24 : IPNet := { IP := [10, 0, 0, 0], Mask := CIDRMask 24 32 }

/-- The network `10.0.0.0/8`. -/
def net10slash8 : IPNet := { IP := [10, 0, 0, 0], Mask := CIDRMask 8 32 }

/-- The network `192.168.100.0/24`. -/
def net192slash24 : IPNet := { IP := [192, 168, 100, 0], Mask := CIDRMask 24 32 }

/-- The network `fd12:3456::/32`. -/
def netFd12slash32 : IPNet :=
  { IP := [0xfd, 0x12, 0x34, 0x56, 0, 0, 0, 0, 0, 0, 0, 0, 0, 0, 0, 0], Mask := CIDRMask 32 128 }

/-- The address `fd12:3456::1`, inside `fd12:3456::/32`. -/
def ipFd12Inside : IP := [0xfd, 0x12, 0x34, 0x56, 0, 0, 0, 0, 0, 0, 0, 0, 0, 0, 0, 1]

/-- The address `fd12:3457::1`, outside `fd12:3456::/32`. -/
def ipFd12Outside : IP := [0xfd, 0x12, 0x34, 0x57, 0, 0, 0, 0, 0, 0, 0, 0, 0, 0, 0, 1]

/-- The zero value of `net.IPNet`: no address, no mask. -/
def netZero : IPNet := { IP := [], Mask := [] }

/-- The handler after `SetAddresses(127.0.0.99, [1.1.1.1], 10.0.0.1, net)` on a new handler. -/
def configured (net : IPNet) : SetResult :=
  SetAddresses New [127, 0, 0, 99] [[1, 1, 1, 1]] [10, 0, 0, 1] net

/-- An exchanger under which every upstream times out. -/
def exAllFail : Exchanger := fun _ _ => (none, some "i/o timeout")

/-- An exchanger under which every upstream answers with a reply to the query; the address of a
nil `*net.UDPAddr` prints as `<nil>`, which cannot be dialled. -/
def exAllAnswer : Exchanger := fun m addr =>
  match addr with
  | none => (none, some "dial udp: address <nil>: missing port in address")
  | some _ => (some (SetReply newMsg m), none)

/-- An exchanger under which `1.1.1.1:53` times out and every other upstream answers. -/
def exFirstFails : Exchanger := fun m addr =>
  if addr = some { IP := [1, 1, 1, 1], Port := 53 } then (none, some "i/o timeout")
  else (some (SetReply newMsg m), none)

/-- A writer that sends every message it is given and, as the `WriteMsg` of the dns library
does, fails on a nil message by dereferencing it. -/
def libraryWriter : Writer
  | none => .panic nilDereference
  | some _ => .ret none

/-! ## Request path: classification and validation -/

/-- With an empty suffix `strings.HasSuffix` holds of every string. -/
theorem HasSuffix_nil (s : List Char) : HasSuffix s [] = true := by
  simp [HasSuffix]

/-- Claim C1, on the code: the condition of `parseQuery` is
`(vpnForward && zerops-suffix) || ptr-suffix`, so the PTR-suffix test is not gated by
`vpnForward`. On the handler `New` builds (`vpnForward` false, `ptrPrefix` empty) every
single-question query meets the condition and is kept away from `serveForward`: the upstreams
contacted are never those `serveForward` contacts. -/
theorem parseQuery_new_handler_never_generic (ex : Exchanger) (inMsg : Msg) (q : Question)
    (hq : inMsg.Question = [q]) :
    New.vpnForward = false ∧ vpnCondition New q = true ∧
      (parseQuery New ex inMsg = serveVpnForward New ex inMsg ∨
        parseQuery New ex inMsg =
          { trace := [],
            result := .ret (some (SetRcode newMsg inMsg RcodeServerFailure), none) }) ∧
      (parseQuery New ex inMsg).trace ≠ (serveForward New ex inMsg).trace := by
  have hc : vpnCondition New q = true := by
    simp [vpnCondition, New, HasSuffix_nil]
  have hf : ∃ a t, (serveForward New ex inMsg).trace = some a :: t := by
    simp only [serveForward, New, serveForwardLoop, hq]
    split <;> simp
  have hv : (serveVpnForward New ex inMsg).trace = [none] := by
    simp only [serveVpnForward, New]
    split <;> rfl
  obtain ⟨a, t, hat⟩ := hf
  by_cases hA : q.Qtype = TypeA
  · have hp : parseQuery New ex inMsg =
        { trace := [],
          result := .ret (some (SetRcode newMsg inMsg RcodeServerFailure), none) } := by
      simp [parseQuery, hq, hc, hA]
    refine ⟨rfl, hc, Or.inr hp, ?_⟩
    rw [hp, hat]
    simp
  · have hp : parseQuery New ex inMsg = serveVpnForward New ex inMsg := by
      simp [parseQuery, hq, hc, hA]
    refine ⟨rfl, hc, Or.inl hp, ?_⟩
    rw [hp, hv, hat]
    simp

/-- Claim C1 at a concrete query: `example.com.` with type AAAA on a new handler. -/
theorem parseQuery_new_handler_never_generic_witness :
    (queryMsg 7 [question "example.com." TypeAAAA]).Question
        = [question "example.com." TypeAAAA] ∧
      (parseQuery New exAllAnswer (queryMsg 7 [question "example.com." TypeAAAA])).trace
        ≠ (serveForward New exAllAnswer (queryMsg 7 [question "example.com." TypeAAAA])).trace :=
  ⟨rfl, (parseQuery_new_handler_never_generic exAllAnswer
    (queryMsg 7 [question "example.com." TypeAAAA]) (question "example.com." TypeAAAA) rfl).2.2.2⟩

/-- Claim C2, on the code: for a message with more than one question `parseQuery` stores the
rcode through its result pointer `out`, which is still nil; the call panics, returns no
response, and `ServeDNS` writes nothing. -/
theorem parseQuery_multi_question_panics (h : Handler) (ex : Exchanger) (w : Writer)
    (inMsg : Msg) (hlen : 1 < inMsg.Question.length) :
    parseQuery h ex inMsg = { trace := [], result := .panic nilDereference } ∧
      ServeDNS h ex w inMsg = ([Event.close], .panic nilDereference) := by
  have hp : parseQuery h ex inMsg = { trace := [], result := .panic nilDereference } := by
    match hq : inMsg.Question with
    | [] => simp [hq] at hlen
    | [_] => simp [hq] at hlen
    | _ :: _ :: _ => simp [parseQuery, hq, storeRcode]
  exact ⟨hp, by simp [ServeDNS, hp]⟩

/-- Claim C2 at a message with the two questions `a.` and `b.`. -/
theorem parseQuery_multi_question_panics_witness :
    1 < (queryMsg 7 [question "a." TypeA, question "b." TypeA]).Question.length ∧
      ServeDNS New exAllAnswer libraryWriter (queryMsg 7 [question "a." TypeA, question "b." TypeA])
        = ([Event.close], .panic nilDereference) :=
  ⟨by decide, (parseQuery_multi_question_panics New exAllAnswer libraryWriter
    (queryMsg 7 [question "a." TypeA, question "b." TypeA]) (by decide)).2⟩

/-- Claim C7, on the code: for a message without questions `parseQuery` contacts no upstream and
returns the pair `(nil, nil)`; as the error is nil, `ServeDNS` does not stop there: it calls
`w.WriteMsg` with the nil response, and ends the way that call ends. -/
theorem serveDNS_zero_questions_calls_writeMsg_nil (h : Handler) (ex : Exchanger) (w : Writer)
    (inMsg : Msg) (hq : inMsg.Question = []) :
    parseQuery h ex inMsg = { trace := [], result := .ret (none, none) } ∧
      Event.writeMsg none ∈ (ServeDNS h ex w inMsg).1 ∧
      (∀ msg, w none = .panic msg → (ServeDNS h ex w inMsg).2 = .panic msg) := by
  have hp : parseQuery h ex inMsg = { trace := [], result := .ret (none, none) } := by
    simp [parseQuery, hq]
  refine ⟨hp, ?_, ?_⟩
  · simp only [ServeDNS, hp]
    split <;> simp
  · intro msg hw
    simp [ServeDNS, hp, hw]

/-- Claim C7 at the empty query, with the writer of the dns library. -/
theorem serveDNS_zero_questions_calls_writeMsg_nil_witness :
    (queryMsg 7 []).Question = [] ∧
      ServeDNS New exAllAnswer libraryWriter (queryMsg 7 [])
        = ([Event.writeMsg none, Event.close], .panic nilDereference) ∧
      Event.writeMsg none ∈ (ServeDNS New exAllAnswer libraryWriter (queryMsg 7 [])).1 :=
  ⟨rfl, by decide, (serveDNS_zero_questions_calls_writeMsg_nil New exAllAnswer libraryWriter
    (queryMsg 7 []) rfl).2.1⟩

/-- Claim C5: a single-question query that meets the VPN condition of `parseQuery` and has type A
is answered, whatever the exchanger, without any upstream exchange and without error, by a reply
to the request (same id and question, response bit set) with rcode `ServerFailure` and empty
answer, authority and additional sections. -/
theorem parseQuery_vpn_type_A_server_failure (h : Handler) (ex : Exchanger) (inMsg : Msg)
    (q : Question) (hq : inMsg.Question = [q]) (hvpn : vpnCondition h q = true)
    (hA : q.Qtype = TypeA) :
    ∃ m : Msg, parseQuery h ex inMsg = { trace := [], result := .ret (some m, none) } ∧
      m = SetRcode newMsg inMsg RcodeServerFailure ∧
      m.Rcode = RcodeServerFailure ∧ m.Answer = [] ∧ m.Ns = [] ∧ m.Extra = [] ∧
      m.Id = inMsg.Id ∧ m.Response = true ∧ m.Opcode = inMsg.Opcode ∧ m.Question = [q] := by
  refine ⟨SetRcode newMsg inMsg RcodeServerFailure, ?_, rfl, ?_⟩
  · simp [parseQuery, hq, hvpn, hA]
  · simp only [SetRcode, SetReply, hq, newMsg]
    split <;> simp

/-- Claim C5 at `foo.zerops.` with type A, under the network `10.0.0.0/24`. -/
theorem parseQuery_vpn_type_A_server_failure_witness :
    vpnCondition (configured net10slash24).state (question "foo.zerops." TypeA) = true ∧
      ∃ m : Msg, parseQuery (configured net10slash24).state exAllAnswer
          (queryMsg 7 [question "foo.zerops." TypeA])
            = { trace := [], result := .ret (some m, none) } ∧
        m = SetRcode newMsg (queryMsg 7 [question "foo.zerops." TypeA]) RcodeServerFailure ∧
        m.Rcode = RcodeServerFailure ∧ m.Answer = [] ∧ m.Ns = [] ∧ m.Extra = [] ∧
        m.Id = (queryMsg 7 [question "foo.zerops." TypeA]).Id ∧ m.Response = true ∧
        m.Opcode = (queryMsg 7 [question "foo.zerops." TypeA]).Opcode ∧
        m.Question = [question "foo.zerops." TypeA] :=
  ⟨by decide, parseQuery_vpn_type_A_server_failure (configured net10slash24).state exAllAnswer
    (queryMsg 7 [question "foo.zerops." TypeA]) (question "foo.zerops." TypeA) rfl (by decide)
    rfl⟩

/-! ## Reconfiguration -/

/-- Claim C8: `StopForward` clears `vpnForward`, leaves every other routing field as it was, and
is idempotent. -/
theorem stopForward_frame (h : Handler) :
    (StopForward h).vpnForward = false ∧
      (StopForward h).address = h.address ∧
      (StopForward h).forwardAddress = h.forwardAddress ∧
      (StopForward h).vpnForwardAddress = h.vpnForwardAddress ∧
      (StopForward h).vpnNetwork = h.vpnNetwork ∧
      (StopForward h).ptrPrefix = h.ptrPrefix ∧
      StopForward (StopForward h) = StopForward h :=
  ⟨rfl, rfl, rfl, rfl, rfl, rfl, rfl⟩

/-! ## Generic forwarding -/

/-- When every upstream left fails, the loop of `serveForward` contacts all of them in order and
ends with the error `forward error`. -/
theorem serveForwardLoop_all_fail (ex : Exchanger) (m : Msg) (l : List IP) (q : Question)
    (qs : List Question) (hq : m.Question = q :: qs)
    (hfail : ∀ a ∈ l, (ex m (some { IP := a, Port := 53 })).2 ≠ none) :
    serveForwardLoop ex m l =
      { trace := l.map (fun a => some { IP := a, Port := 53 }),
        result := .ret (none, some "forward error") } := by
  induction l with
  | nil => rfl
  | cons a rest ih =>
    have ha := hfail a (List.mem_cons_self a rest)
    have hrest := ih (fun b hb => hfail b (List.mem_cons_of_mem a hb))
    rcases hex : ex m (some { IP := a, Port := 53 }) with ⟨r, e⟩
    cases e with
    | none => simp [hex] at ha
    | some e => simp [serveForwardLoop, hex, hrest, hq]

/-- When the upstreams of `pre` fail and `s` answers, the loop of `serveForward` contacts `pre`
and then `s`, nothing after it, and returns the answer of `s` without error. -/
theorem serveForwardLoop_first_success (ex : Exchanger) (m : Msg) (pre post : List IP) (s : IP)
    (resp : Option Msg) (q : Question) (qs : List Question) (hq : m.Question = q :: qs)
    (hfail : ∀ a ∈ pre, (ex m (some { IP := a, Port := 53 })).2 ≠ none)
    (hs : ex m (some { IP := s, Port := 53 }) = (resp, none)) :
    serveForwardLoop ex m (pre ++ s :: post) =
      { trace := (pre ++ [s]).map (fun a => some { IP := a, Port := 53 }),
        result := .ret (resp, none) } := by
  induction pre with
  | nil => simp [serveForwardLoop, hs]
  | cons a rest ih =>
    have ha := hfail a (List.mem_cons_self a rest)
    have hrest := ih (fun b hb => hfail b (List.mem_cons_of_mem a hb))
    rcases hex : ex m (some { IP := a, Port := 53 }) with ⟨r, e⟩
    cases e with
    | none => simp [hex] at ha
    | some e => simp [serveForwardLoop, hex, hrest, hq]

/-- The loop of `serveForward` never panics, and the error it returns is non-nil exactly when
every upstream left fails. -/
theorem serveForwardLoop_error_iff (ex : Exchanger) (m : Msg) (l : List IP) (q : Question)
    (qs : List Question) (hq : m.Question = q :: qs) :
    (∃ r e, (serveForwardLoop ex m l).result = .ret (r, e)) ∧
      ((∃ r e, (serveForwardLoop ex m l).result = .ret (r, some e)) ↔
        ∀ a ∈ l, (ex m (some { IP := a, Port := 53 })).2 ≠ none) := by
  induction l with
  | nil => exact ⟨⟨none, some "forward error", rfl⟩, by simp [serveForwardLoop]⟩
  | cons a rest ih =>
    rcases hex : ex m (some { IP := a, Port := 53 }) with ⟨r, e⟩
    cases e with
    | none =>
      refine ⟨⟨r, none, by simp [serveForwardLoop, hex]⟩, ?_⟩
      constructor
      · rintro ⟨r1, e1, h1⟩
        simp [serveForwardLoop, hex] at h1
      · intro hall
        have := hall a (List.mem_cons_self a rest)
        simp [hex] at this
    | some e =>
      have hres : (serveForwardLoop ex m (a :: rest)).result
          = (serveForwardLoop ex m rest).result := by
        simp [serveForwardLoop, hex, hq]
      rw [hres]
      refine ⟨ih.1, ih.2.trans ?_⟩
      constructor
      · intro hall b hb
        rcases List.mem_cons.1 hb with rfl | hb
        · simp [hex]
        · exact hall b hb
      · intro hall b hb
        exact hall b (List.mem_cons_of_mem a hb)

/-- On a message without questions a failed exchange ends `serveForward` in a panic: the log call
indexes `m.Question[0]`. `parseQuery` calls `serveForward` with single-question messages only. -/
theorem serveForwardLoop_no_question_panics (ex : Exchanger) (m : Msg) (a : IP) (rest : List IP)
    (r : Option Msg) (e : Error) (hq : m.Question = [])
    (hex : ex m (some { IP := a, Port := 53 }) = (r, some e)) :
    serveForwardLoop ex m (a :: rest) =
      { trace := [some { IP := a, Port := 53 }], result := .panic indexOutOfRange } := by
  simp [serveForwardLoop, hex, hq]

/-- Claim C6: for a query `m` that carries a question (as every message `parseQuery` forwards
does), `serveForward` walks `forwardAddress` in order, each upstream on port 53. If the upstreams
before `s` fail and `s` answers, it contacts exactly those and `s`, and returns the answer of `s`
with a nil error; if every upstream fails (an empty list included) it contacts all of them and
returns the error `forward error` with no response. It never panics, and its error is non-nil
exactly when every upstream fails. -/
theorem serveForward_first_success_or_error (h : Handler) (ex : Exchanger) (m : Msg)
    (hq : m.Question ≠ []) :
    (∀ (pre post : List IP) (s : IP) (resp : Option Msg),
        h.forwardAddress = pre ++ s :: post →
        (∀ a ∈ pre, (ex m (some { IP := a, Port := 53 })).2 ≠ none) →
        ex m (some { IP := s, Port := 53 }) = (resp, none) →
        serveForward h ex m =
          { trace := (pre ++ [s]).map (fun a => some { IP := a, Port := 53 }),
            result := .ret (resp, none) }) ∧
      ((∀ a ∈ h.forwardAddress, (ex m (some { IP := a, Port := 53 })).2 ≠ none) →
        serveForward h ex m =
          { trace := h.forwardAddress.map (fun a => some { IP := a, Port := 53 }),
            result := .ret (none, some "forward error") }) ∧
      (h.forwardAddress = [] →
        serveForward h ex m = { trace := [], result := .ret (none, some "forward error") }) ∧
      (∃ r e, (serveForward h ex m).result = .ret (r, e)) ∧
      ((∃ r e, (serveForward h ex m).result = .ret (r, some e)) ↔
        ∀ a ∈ h.forwardAddress, (ex m (some { IP := a, Port := 53 })).2 ≠ none) := by
  obtain ⟨q, qs, hqs⟩ := List.exists_cons_of_ne_nil hq
  refine ⟨?_, ?_, ?_, ?_, ?_⟩
  · intro pre post s resp hsplit hfail hs
    rw [serveForward, hsplit]
    exact serveForwardLoop_first_success ex m pre post s resp q qs hqs hfail hs
  · intro hfail
    exact serveForwardLoop_all_fail ex m h.forwardAddress q qs hqs hfail
  · intro hnil
    rw [serveForward, hnil]
    rfl
  · exact (serveForwardLoop_error_iff ex m h.forwardAddress q qs hqs).1
  · exact (serveForwardLoop_error_iff ex m h.forwardAddress q qs hqs).2

/-- Claim C6 at the list `[1.1.1.1, 8.8.8.8]` where `1.1.1.1` times out and `8.8.8.8` answers, for
the query `example.com.` of type A: both are contacted in order and the answer of `8.8.8.8` is
returned without error. -/
theorem serveForward_first_success_or_error_witness :
    (queryMsg 7 [question "example.com." TypeA]).Question ≠ [] ∧
    serveForward { New with forwardAddress := [[1, 1, 1, 1], [8, 8, 8, 8]] } exFirstFails
        (queryMsg 7 [question "example.com." TypeA])
      = { trace := [some { IP := [1, 1, 1, 1], Port := 53 }, some { IP := [8, 8, 8, 8], Port := 53 }],
          result := .ret (some (SetReply newMsg (queryMsg 7 [question "example.com." TypeA])),
            none) } :=
  ⟨by decide,
   (serveForward_first_success_or_error { New with forwardAddress := [[1, 1, 1, 1], [8, 8, 8, 8]] }
    exFirstFails (queryMsg 7 [question "example.com." TypeA]) (by decide)).1 [[1, 1, 1, 1]] []
    [8, 8, 8, 8] (some (SetReply newMsg (queryMsg 7 [question "example.com." TypeA]))) rfl
    (by decide) (by decide)⟩

/-! ## VPN forwarding after `SetAddresses` -/

/-- What `SetAddresses` stores when it returns: the arguments, the flag, and the VPN resolver on
port 53. -/
theorem SetAddresses_done_fields (h0 h : Handler) (serverAddress : IP) (userResolverIp : List IP)
    (vpnResolverIp : IP) (vpnNetwork : IPNet)
    (hset : SetAddresses h0 serverAddress userResolverIp vpnResolverIp vpnNetwork = .done h) :
    h.address = serverAddress ∧ h.forwardAddress = userResolverIp ∧ h.vpnForward = true ∧
      h.vpnNetwork = vpnNetwork ∧
      h.vpnForwardAddress = some { IP := vpnResolverIp, Port := 53 } := by
  unfold SetAddresses at hset
  split at hset
  · split at hset
    · exact absurd hset (by simp)
    · injection hset with hset
      subst hset
      exact ⟨rfl, rfl, rfl, rfl, rfl⟩
  · injection hset with hset
    subst hset
    exact ⟨rfl, rfl, rfl, rfl, rfl⟩

/-- Claim C9: in a state that `SetAddresses` returned, a single-question query whose name ends
with `.zerops.` or with the PTR suffix and whose type is not A makes `parseQuery` exchange exactly
once, with `vpnResolverIp` on port 53; on success the response of that exchange is returned as it
is with a nil error, on failure its error is returned with a nil response. -/
theorem parseQuery_vpn_forward_once (h0 h : Handler) (serverAddress : IP)
    (userResolverIp : List IP) (vpnResolverIp : IP) (vpnNetwork : IPNet) (ex : Exchanger)
    (inMsg : Msg) (q : Question)
    (hset : SetAddresses h0 serverAddress userResolverIp vpnResolverIp vpnNetwork = .done h)
    (hq : inMsg.Question = [q])
    (hname : HasSuffix q.Name ".zerops.".toList = true ∨ HasSuffix q.Name h.ptrPrefix = true)
    (hA : q.Qtype ≠ TypeA) :
    h.vpnForward = true ∧
      (parseQuery h ex inMsg).trace = [some { IP := vpnResolverIp, Port := 53 }] ∧
      (∀ resp, ex inMsg (some { IP := vpnResolverIp, Port := 53 }) = (resp, none) →
        (parseQuery h ex inMsg).result = .ret (resp, none)) ∧
      (∀ r e, ex inMsg (some { IP := vpnResolverIp, Port := 53 }) = (r, some e) →
        (parseQuery h ex inMsg).result = .ret (none, some e)) := by
  obtain ⟨-, -, hfwd, -, haddr⟩ :=
    SetAddresses_done_fields h0 h serverAddress userResolverIp vpnResolverIp vpnNetwork hset
  have hc : vpnCondition h q = true := by
    unfold vpnCondition
    rcases hname with hz | hp
    · rw [hfwd, hz]
      rfl
    · rw [hp, Bool.or_true]
  have hp : parseQuery h ex inMsg = serveVpnForward h ex inMsg := by
    simp [parseQuery, hq, hc, hA]
  refine ⟨hfwd, ?_, ?_, ?_⟩
  · rw [hp]
    simp only [serveVpnForward, haddr]
    split <;> rfl
  · intro resp hex
    rw [hp]
    simp [serveVpnForward, haddr, hex]
  · intro r e hex
    rw [hp]
    simp [serveVpnForward, haddr, hex]

/-- Claim C9 at `foo.zerops.` with type AAAA under the network `10.0.0.0/24`, with the resolver
`10.0.0.1`. -/
theorem parseQuery_vpn_forward_once_witness :
    (parseQuery (configured net10slash24).state exAllFail
        (queryMsg 7 [question "foo.zerops." TypeAAAA])).trace
      = [some { IP := [10, 0, 0, 1], Port := 53 }] ∧
    (parseQuery (configured net10slash24).state exAllFail
        (queryMsg 7 [question "foo.zerops." TypeAAAA])).result
      = .ret (none, some "i/o timeout") :=
  ⟨(parseQuery_vpn_forward_once New (configured net10slash24).state [127, 0, 0, 99] [[1, 1, 1, 1]]
      [10, 0, 0, 1] net10slash24 exAllFail (queryMsg 7 [question "foo.zerops." TypeAAAA])
      (question "foo.zerops." TypeAAAA) (by decide) rfl (Or.inl (by decide)) (by decide)).2.1,
   (parseQuery_vpn_forward_once New (configured net10slash24).state [127, 0, 0, 99] [[1, 1, 1, 1]]
      [10, 0, 0, 1] net10slash24 exAllFail (queryMsg 7 [question "foo.zerops." TypeAAAA])
      (question "foo.zerops." TypeAAAA) (by decide) rfl (Or.inl (by decide)) (by decide)).2.2.2
      none "i/o timeout" rfl⟩

/-! ## The PTR suffix -/

/-- Claim C3, on the code: the slice index `(bits-ones)/4*2` counts two characters per nibble, as
in `ip6.arpa.` names, whatever the address family. For `192.168.100.0/24` the stored suffix is
`.0.168.192.in-addr.arpa.`, which the name of `192.168.100.5` (inside the network) does not end
with; for `10.0.0.0/24` it is `.0.10.in-addr.arpa.`, which the name of `10.0.1.5` (outside the
network) ends with, as does the name of `10.0.0.5`; for `10.0.0.0/8` it is `.addr.arpa.`, which
the name of `10.0.0.5` does not end with. -/
theorem SetAddresses_ipv4_suffix_not_the_zone :
    ((∃ h, configured net192slash24 = .done h ∧
        h.ptrPrefix = ".0.168.192.in-addr.arpa.".toList) ∧
      reverseName [192, 168, 100, 5] = "5.100.168.192.in-addr.arpa.".toList ∧
      Contains net192slash24 [192, 168, 100, 5] = true ∧
      HasSuffix (reverseName [192, 168, 100, 5]) (configured net192slash24).state.ptrPrefix
        = false) ∧
    ((∃ h, configured net10slash24 = .done h ∧ h.ptrPrefix = ".0.10.in-addr.arpa.".toList) ∧
      Contains net10slash24 [10, 0, 1, 5] = false ∧
      HasSuffix (reverseName [10, 0, 1, 5]) (configured net10slash24).state.ptrPrefix = true ∧
      Contains net10slash24 [10, 0, 0, 5] = true ∧
      HasSuffix (reverseName [10, 0, 0, 5]) (configured net10slash24).state.ptrPrefix = true) ∧
    ((∃ h, configured net10slash8 = .done h ∧ h.ptrPrefix = ".addr.arpa.".toList) ∧
      Contains net10slash8 [10, 0, 0, 5] = true ∧
      HasSuffix (reverseName [10, 0, 0, 5]) (configured net10slash8).state.ptrPrefix = false) := by
  refine ⟨⟨⟨_, rfl, ?_⟩, ?_, ?_, ?_⟩, ⟨⟨_, rfl, ?_⟩, ?_, ?_, ?_, ?_⟩, ⟨⟨_, rfl, ?_⟩, ?_, ?_⟩⟩ <;>
    decide

/-- The same slice index on an IPv6 network whose prefix length is a multiple of four gives the
reverse zone: for `fd12:3456::/32` the stored suffix is `.6.5.4.3.2.1.d.f.ip6.arpa.`, which the
name of `fd12:3456::1` ends with and the name of `fd12:3457::1` does not. -/
theorem SetAddresses_ipv6_suffix_example :
    (∃ h, configured netFd12slash32 = .done h ∧
        h.ptrPrefix = ".6.5.4.3.2.1.d.f.ip6.arpa.".toList) ∧
      Contains netFd12slash32 ipFd12Inside = true ∧
      HasSuffix (reverseName ipFd12Inside) (configured netFd12slash32).state.ptrPrefix = true ∧
      Contains netFd12slash32 ipFd12Outside = false ∧
      HasSuffix (reverseName ipFd12Outside) (configured netFd12slash32).state.ptrPrefix
        = false := by
  refine ⟨⟨_, rfl, ?_⟩, ?_, ?_, ?_, ?_⟩ <;> decide

/-- Claim C4, on the code: when `dns.ReverseAddr` fails for `vpnNetwork.IP`, `SetAddresses`
returns having stored the new `vpnNetwork` and left `ptrPrefix` as it was; every name that ended
with the old suffix is still sent down the VPN branch of `parseQuery`. -/
theorem SetAddresses_failed_derivation_keeps_suffix (h0 : Handler) (serverAddress : IP)
    (userResolverIp : List IP) (vpnResolverIp : IP) (vpnNetwork : IPNet) (e : Error)
    (herr : ReverseAddr (parseIPString vpnNetwork.IP) = .error e) :
    ∃ h, SetAddresses h0 serverAddress userResolverIp vpnResolverIp vpnNetwork = .done h ∧
      h.vpnNetwork = vpnNetwork ∧ h.ptrPrefix = h0.ptrPrefix ∧
      ∀ q : Question, HasSuffix q.Name h0.ptrPrefix = true → vpnCondition h q = true := by
  refine ⟨{ h0 with address := serverAddress, forwardAddress := userResolverIp,
                       vpnForward := true, vpnNetwork := vpnNetwork,
                       vpnForwardAddress := some { IP := vpnResolverIp, Port := 53 } },
    by simp only [SetAddresses, herr], rfl, rfl, ?_⟩
  intro q hq
  simp only [vpnCondition, hq, Bool.or_true]

/-- Claim C4 at a handler configured for `10.0.0.0/24` and then given the zero `net.IPNet`: the
suffix `.0.10.in-addr.arpa.` survives and `5.0.0.10.in-addr.arpa.` still meets the VPN
condition. -/
theorem SetAddresses_failed_derivation_keeps_suffix_witness :
    ReverseAddr (parseIPString netZero.IP) = .error "unrecognized address" ∧
      ∃ h, SetAddresses (configured net10slash24).state [127, 0, 0, 99] [[1, 1, 1, 1]]
          [10, 0, 0, 1] netZero = .done h ∧
        h.vpnNetwork = netZero ∧ h.ptrPrefix = ".0.10.in-addr.arpa.".toList ∧
        vpnCondition h (question "5.0.0.10.in-addr.arpa." TypePTR) = true := by
  obtain ⟨h, hdone, hnet, hptr, hcond⟩ :=
    SetAddresses_failed_derivation_keeps_suffix (configured net10slash24).state [127, 0, 0, 99]
      [[1, 1, 1, 1]] [10, 0, 0, 1] netZero "unrecognized address" rfl
  exact ⟨rfl, h, hdone, hnet, hptr.trans (by decide),
    hcond (question "5.0.0.10.in-addr.arpa." TypePTR) (by decide)⟩

/-! ## The slice expression of `SetAddresses` -/

/-- The digit loop of `Nat.toDigits` never shortens its accumulator. -/
theorem toDigitsCore_length_ge (b : Nat) : ∀ (fuel n : Nat) (ds : List Char),
    ds.length ≤ (Nat.toDigitsCore b fuel n ds).length := by
  intro fuel
  induction fuel with
  | zero => intro n ds; simp [Nat.toDigitsCore]
  | succ fuel ih =>
    intro n ds
    simp only [Nat.toDigitsCore]
    split
    · simp
    · exact Nat.le_trans (by simp) (ih _ _)

/-- A number prints with at least one digit. -/
theorem toDigits_length_pos (b v : Nat) : 0 < (Nat.toDigits b v).length := by
  simp only [Nat.toDigits, Nat.toDigitsCore]
  split
  · simp
  · exact Nat.lt_of_lt_of_le (by simp) (toDigitsCore_length_ge b _ _ _)

/-- Each byte adds at least a digit and a dot to the IPv4 reverse name. -/
theorem reverseOctets_length (l : List Nat) : ∀ buf : List Char,
    buf.length + 2 * l.length ≤ (reverseOctets l buf).length := by
  induction l with
  | nil => intro buf; simp [reverseOctets]
  | cons v rest ih =>
    intro buf
    have h1 := ih (AppendInt buf v ++ ['.'])
    have h2 := toDigits_length_pos 10 v
    simp only [reverseOctets, AppendInt, List.length_cons, List.length_append,
      List.length_nil] at h1 ⊢
    omega

/-- Each byte adds two nibbles and two dots to the IPv6 reverse name. -/
theorem reverseNibbles_length (l : List Nat) : ∀ buf : List Char,
    (reverseNibbles l buf).length = buf.length + 4 * l.length := by
  induction l with
  | nil => intro buf; simp [reverseNibbles]
  | cons v rest ih =>
    intro buf
    simp only [reverseNibbles, ih, List.length_append, List.length_cons, List.length_nil]
    omega

/-- The result of `To4`, when not nil, has four bytes. -/
theorem To4_length (ip v4 : IP) (h : To4 ip = some v4) : v4.length = 4 := by
  unfold To4 at h
  split at h
  · injection h with h; subst h; assumption
  · split at h
    · injection h with h
      subst h
      rename_i h16
      simp [h16.1]
    · exact absurd h (by simp)

/-- The IPv4-mapped form of a four-byte address converts back to it. -/
theorem To4_mapped (v4 : IP) (h : v4.length = 4) :
    To4 ([0, 0, 0, 0, 0, 0, 0, 0, 0, 0, 0xff, 0xff] ++ v4) = some v4 := by
  match v4, h with
  | [a, b, c, d], _ => simp [To4, isZeros]

set_option maxRecDepth 100000 in
/-- The method `Size` reads back the prefix length of every 32-bit CIDR mask. -/
theorem Size_CIDRMask_32 : ∀ ones, ones ≤ 32 → Size (CIDRMask ones 32) = ((ones : Int), 32) := by
  decide

set_option maxRecDepth 100000 in
/-- The method `Size` reads back the prefix length of every 128-bit CIDR mask. -/
theorem Size_CIDRMask_128 : ∀ ones, ones ≤ 128 → Size (CIDRMask ones 128) = ((ones : Int), 128) := by
  decide

/-- On a CIDR mask the slice index of `SetAddresses` is `(bits-ones)/4*2`, a natural number. -/
theorem ptrOffset_CIDRMask (ones bits : Nat) (hb : bits = 32 ∨ bits = 128) (ho : ones ≤ bits) :
    ptrOffset (CIDRMask ones bits) = (((bits - ones) / 4 * 2 : Nat) : Int) := by
  have hs : Size (CIDRMask ones bits) = ((ones : Int), (bits : Int)) := by
    rcases hb with rfl | rfl
    · exact Size_CIDRMask_32 ones ho
    · exact Size_CIDRMask_128 ones ho
  have hnn : (0 : Int) ≤ (bits : Int) - (ones : Int) := by omega
  simp only [ptrOffset, hs]
  rw [Int.tdiv_eq_ediv hnn (by decide)]
  omega

set_option maxRecDepth 100000 in
/-- Eight rounds are enough for the bit loop of `simpleMaskLength`: on every byte it stops with
the top bit of what is left clear, as the Go loop does. -/
theorem leadingOnes_fuel_adequate :
    ∀ v, v < 256 → (leadingOnes 8 v).2 &&& 0x80 = 0 ∧ (leadingOnes 8 v).1 ≤ 8 := by
  decide

/-- Claim C10: for an IPv4 address (4-byte or IPv4-mapped) with the 32-bit mask of any prefix
length `ones ≤ 32`, and for a 16-byte address that is not IPv4-mapped with the 128-bit mask of any
prefix length `ones ≤ 128`, `dns.ReverseAddr` succeeds with a string `ptr`, the mask reads back as
`(ones, bits)`, the index `(bits-ones)/4*2` lies between 0 and `len(ptr)`, the slice expression is
defined, and `SetAddresses` returns having stored `"." + ptr[(bits-ones)/4*2:]`, which begins
with a dot. -/
theorem SetAddresses_slice_in_range (h0 : Handler) (serverAddress : IP)
    (userResolverIp : List IP) (vpnResolverIp : IP) (vpnNetwork : IPNet) (ones bits : Nat)
    (hones : ones ≤ bits) (hmask : vpnNetwork.Mask = CIDRMask ones bits)
    (hfam : ((To4 vpnNetwork.IP).isSome = true ∧ bits = 32) ∨
      (vpnNetwork.IP.length = 16 ∧ To4 vpnNetwork.IP = none ∧ bits = 128)) :
    ∃ (ptr : List Char) (h : Handler),
      ReverseAddr (parseIPString vpnNetwork.IP) = .ok ptr ∧
      ptrOffset vpnNetwork.Mask = (((bits - ones) / 4 * 2 : Nat) : Int) ∧
      0 ≤ ptrOffset vpnNetwork.Mask ∧ ptrOffset vpnNetwork.Mask ≤ (ptr.length : Int) ∧
      sliceFrom ptr (ptrOffset vpnNetwork.Mask)
        = some (ptr.drop (ptrOffset vpnNetwork.Mask).toNat) ∧
      SetAddresses h0 serverAddress userResolverIp vpnResolverIp vpnNetwork = .done h ∧
      h.ptrPrefix = '.' :: ptr.drop (ptrOffset vpnNetwork.Mask).toNat ∧
      h.ptrPrefix.head? = some '.' := by
  have hb : bits = 32 ∨ bits = 128 := by
    rcases hfam with ⟨-, hb⟩ | ⟨-, -, hb⟩
    · exact Or.inl hb
    · exact Or.inr hb
  have hoff := ptrOffset_CIDRMask ones bits hb hones
  rw [← hmask] at hoff
  have key : ∀ ptr : List Char, ReverseAddr (parseIPString vpnNetwork.IP) = .ok ptr →
      (bits - ones) / 4 * 2 ≤ ptr.length →
      ∃ (ptr : List Char) (h : Handler),
        ReverseAddr (parseIPString vpnNetwork.IP) = .ok ptr ∧
        ptrOffset vpnNetwork.Mask = (((bits - ones) / 4 * 2 : Nat) : Int) ∧
        0 ≤ ptrOffset vpnNetwork.Mask ∧ ptrOffset vpnNetwork.Mask ≤ (ptr.length : Int) ∧
        sliceFrom ptr (ptrOffset vpnNetwork.Mask)
          = some (ptr.drop (ptrOffset vpnNetwork.Mask).toNat) ∧
        SetAddresses h0 serverAddress userResolverIp vpnResolverIp vpnNetwork = .done h ∧
        h.ptrPrefix = '.' :: ptr.drop (ptrOffset vpnNetwork.Mask).toNat ∧
        h.ptrPrefix.head? = some '.' := by
    intro ptr hptr hle
    have h0le : 0 ≤ ptrOffset vpnNetwork.Mask := by rw [hoff]; omega
    have hle2 : ptrOffset vpnNetwork.Mask ≤ (ptr.length : Int) := by rw [hoff]; omega
    have hslice : sliceFrom ptr (ptrOffset vpnNetwork.Mask)
        = some (ptr.drop (ptrOffset vpnNetwork.Mask).toNat) := by
      simp only [sliceFrom, h0le, hle2, and_self, if_true]
    refine ⟨ptr, { h0 with address := serverAddress, forwardAddress := userResolverIp,
                            vpnForward := true, vpnNetwork := vpnNetwork,
                            ptrPrefix := ".".toList ++ ptr.drop (ptrOffset vpnNetwork.Mask).toNat,
                            vpnForwardAddress := some { IP := vpnResolverIp, Port := 53 } },
      hptr, hoff, h0le, hle2, hslice, ?_, rfl, rfl⟩
    simp only [SetAddresses, hptr, hslice]
  rcases hfam with ⟨hv4, rfl⟩ | ⟨hlen, hv6, rfl⟩
  · obtain ⟨v4, hv4⟩ := Option.isSome_iff_exists.1 hv4
    have hl := To4_length _ _ hv4
    have hlen := reverseOctets_length v4.reverse []
    apply key (reverseOctets v4.reverse [] ++ "in-addr.arpa.".toList)
    · simp only [parseIPString, hv4, ReverseAddr, To4_mapped v4 hl]
    · simp only [List.length_append, List.length_reverse, hl, List.length_nil] at hlen ⊢
      have : ("in-addr.arpa.".toList).length = 13 := by decide
      omega
  · apply key (reverseNibbles vpnNetwork.IP.reverse [] ++ "ip6.arpa.".toList)
    · simp only [parseIPString, hv6, hlen, if_true, ReverseAddr]
    · have : ("ip6.arpa.".toList).length = 9 := by decide
      simp only [List.length_append, reverseNibbles_length, List.length_reverse, hlen,
        List.length_nil]
      omega

/-- Claim C10 at the network `10.0.0.0/24`: the index is 4 and the stored suffix begins with a
dot. -/
theorem SetAddresses_slice_in_range_witness :
    ∃ (ptr : List Char) (h : Handler),
      ReverseAddr (parseIPString net10slash24.IP) = .ok ptr ∧
      ptrOffset net10slash24.Mask = (((32 - 24) / 4 * 2 : Nat) : Int) ∧
      0 ≤ ptrOffset net10slash24.Mask ∧ ptrOffset net10slash24.Mask ≤ (ptr.length : Int) ∧
      sliceFrom ptr (ptrOffset net10slash24.Mask)
        = some (ptr.drop (ptrOffset net10slash24.Mask).toNat) ∧
      SetAddresses New [127, 0, 0, 99] [[1, 1, 1, 1]] [10, 0, 0, 1] net10slash24 = .done h ∧
      h.ptrPrefix = '.' :: ptr.drop (ptrOffset net10slash24.Mask).toNat ∧
      h.ptrPrefix.head? = some '.' :=
  SetAddresses_slice_in_range New [127, 0, 0, 99] [[1, 1, 1, 1]] [10, 0, 0, 1] net10slash24 24 32
    (by decide) rfl (Or.inl ⟨by decide, rfl⟩)

/-! ## The condition of `parseQuery`, spelled out -/

/-- The VPN branch of `parseQuery` is taken exactly when `vpnForward` holds and the name ends with
`.zerops.`, or the name ends with `ptrPrefix` (whatever `vpnForward` is). -/
theorem vpnCondition_iff (h : Handler) (q : Question) :
    vpnCondition h q = true ↔
      (h.vpnForward = true ∧ HasSuffix q.Name ".zerops.".toList = true) ∨
        HasSuffix q.Name h.ptrPrefix = true := by
  simp only [vpnCondition, Bool.or_eq_true, Bool.and_eq_true]

/-- After `SetAddresses` for `10.0.0.0/24` and then `StopForward`, the flag is off and the
reverse-lookup name `5.0.0.10.in-addr.arpa.` still takes the VPN branch. -/
theorem vpnCondition_after_StopForward :
    (StopForward (configured net10slash24).state).vpnForward = false ∧
      vpnCondition (StopForward (configured net10slash24).state)
        (question "5.0.0.10.in-addr.arpa." TypePTR) = true := by
  decide

end DnsServer
